import Mathlib

/-!
Verification of the offline storage module (`src/assets/js/storage.js`).

The module is embedded shallowly: `localStorage` becomes a record of the
three fixed keys, each holding an optional blob; the JSON encode/decode
round trip is modelled at the level of parsed values, with a `corrupt`
constructor standing for a stored string on which `JSON.parse` throws.
Nondeterministic identifier generation (`_generateId`) is modelled by
passing the generated identifier as an explicit input to `create`.
Change notifications record the list handed to `onDataChanged`, or `none`
when no handler is registered or the call fails before notifying.
-/

namespace XnRoot

/-- A stored record: the open field set of the submitted JS object is kept
opaque as `payload`; the `__backendId` field is modelled separately as an
optional string (`none` when the object has no such field). -/
structure Rec where
  payload : String
  backendId : Option String
deriving Repr, DecidableEq

/-- JS truthiness of `record.__backendId`: absent (`undefined`) and the
empty string are falsy; every other string is truthy. -/
def idTruthy : Option String → Bool
  | none => false
  | some s => s != ""

/-- Content of the players key: the stored string either parses as an
array of records (`good`) or `JSON.parse` throws on it (`corrupt`). -/
inductive PlayersBlob where
  | good (l : List Rec)
  | corrupt
deriving Repr, DecidableEq

/-- The settings object, an opaque mapping of field names to values. -/
abbrev Settings := List (String × String)

/-- Content of the settings key: parses to an object (`good`, the empty
object being `good []`) or `JSON.parse` throws on it (`corrupt`). -/
inductive SettingsBlob where
  | good (s : Settings)
  | corrupt
deriving Repr, DecidableEq

/-- The three `STORAGE_KEYS` slots of the browser localStorage; `none`
means the key is absent (`getItem` returns `null`). -/
structure LocalStorage where
  players : Option PlayersBlob
  currentPlayer : Option String
  settings : Option SettingsBlob
deriving Repr, DecidableEq

/-- `_initializeStorage`: writes an empty array under the players key and
an empty object under the settings key, each only when that key is
absent. -/
def initStorage (ls : LocalStorage) : LocalStorage :=
  let ls1 := if ls.players.isNone then { ls with players := some (.good []) } else ls
  if ls1.settings.isNone then { ls1 with settings := some (.good []) } else ls1

/-- `_getAllPlayers`: reads the players key; a missing key and a caught
parse error both yield the empty list. -/
def getAllPlayers (ls : LocalStorage) : List Rec :=
  match ls.players with
  | some (.good l) => l
  | _ => []

/-- `_saveAllPlayers`: serializes and stores the whole list under the
players key (the localStorage write itself is modelled as succeeding). -/
def saveAllPlayers (ls : LocalStorage) (l : List Rec) : LocalStorage :=
  { ls with players := some (.good l) }

/-- `OfflineResult`: the dataSdk-compatible result wrapper, with its
`_success` flag, `_data` payload (the players list for `read`, `undefined`
i.e. `none` otherwise) and `_error` message (`undefined` on success). -/
structure OfflineResult where
  _success : Bool
  _data : Option (List Rec)
  _error : Option String
deriving Repr, DecidableEq

/-- `OfflineResult.ok(data)`. -/
def OfflineResult.ok (d : Option (List Rec)) : OfflineResult := ⟨true, d, none⟩

/-- `OfflineResult.error(error)`. -/
def OfflineResult.error (e : String) : OfflineResult := ⟨false, none, some e⟩

/-- The `isOk` getter. -/
def OfflineResult.isOk (r : OfflineResult) : Bool := r._success

/-- The `isError` getter. -/
def OfflineResult.isError (r : OfflineResult) : Bool := !r._success

/-- The `data` getter: throws (modelled as `Except.error`) on a failure
result, returns the stored payload otherwise. -/
def OfflineResult.getData (r : OfflineResult) : Except String (Option (List Rec)) :=
  if !r._success then .error "Cannot access data on error result" else .ok r._data

/-- The `error` getter: throws (modelled as `Except.error`) on a success
result, returns the stored error otherwise. -/
def OfflineResult.getError (r : OfflineResult) : Except String (Option String) :=
  if r._success then .error "Cannot access error on success result" else .ok r._error

/-- `OfflineStorageService` instance state: the backing localStorage, the
`initialized` flag (named `inited` here) and whether a `dataHandler`
exposing `onDataChanged` is registered. -/
structure ServiceState where
  ls : LocalStorage
  inited : Bool
  hasHandler : Bool
deriving Repr, DecidableEq

/-- The message of the error thrown by CRUD calls before `init`. -/
def notInitMsg : String := "Storage not initialized. Call init() first."

/-- The list passed to `dataHandler.onDataChanged`, or `none` when no
handler is registered. -/
def notify (st : ServiceState) (l : List Rec) : Option (List Rec) :=
  if st.hasHandler then some l else none

/-- `new OfflineStorageService()` over an empty localStorage: the
constructor runs `_initializeStorage`. -/
def newService : ServiceState :=
  { ls := initStorage ⟨none, none, none⟩, inited := false, hasHandler := false }

/-- `init(handler)`: registers the handler, marks the service initialized,
loads the players and notifies the handler with them. -/
def init (st : ServiceState) (handler : Bool) :
    OfflineResult × ServiceState × Option (List Rec) :=
  let st1 := { st with hasHandler := handler, inited := true }
  (OfflineResult.ok none, st1, notify st1 (getAllPlayers st1.ls))

/-- `create(record)`, with the value returned by `_generateId()` supplied
as the explicit input `gid`: spreads the submitted record and overwrites
its `__backendId` with `gid`, appends it, saves and notifies. -/
def create (st : ServiceState) (record : Rec) (gid : String) :
    OfflineResult × ServiceState × Option (List Rec) :=
  if !st.inited then (.error notInitMsg, st, none)
  else
    let players := getAllPlayers st.ls
    let newRecord : Rec := { payload := record.payload, backendId := some gid }
    let players1 := players ++ [newRecord]
    let st1 := { st with ls := saveAllPlayers st.ls players1 }
    (.ok none, st1, notify st1 players1)

/-- `Array.prototype.findIndex`, with `none` for `-1`. -/
def findIndex (p : Rec → Bool) : List Rec → Option Nat
  | [] => none
  | a :: t => if p a then some 0 else (findIndex p t).map (· + 1)

/-- `update(record)`: requires a truthy `__backendId`, locates the first
entry with that identifier, replaces it in place by a full copy of the
submitted record, saves and notifies; errors leave everything unchanged. -/
def update (st : ServiceState) (record : Rec) :
    OfflineResult × ServiceState × Option (List Rec) :=
  if !st.inited then (.error notInitMsg, st, none)
  else if !idTruthy record.backendId then
    (.error "Record must have __backendId to update", st, none)
  else
    let players := getAllPlayers st.ls
    match findIndex (fun p => p.backendId == record.backendId) players with
    | none => (.error "Record not found", st, none)
    | some index =>
      let players1 := players.set index record
      let st1 := { st with ls := saveAllPlayers st.ls players1 }
      (.ok none, st1, notify st1 players1)

/-- `delete(record)`: requires a truthy `__backendId`, filters out every
entry with that identifier, errors when nothing was removed, otherwise
saves the remainder and notifies. -/
def delete (st : ServiceState) (record : Rec) :
    OfflineResult × ServiceState × Option (List Rec) :=
  if !st.inited then (.error notInitMsg, st, none)
  else if !idTruthy record.backendId then
    (.error "Record must have __backendId to delete", st, none)
  else
    let players := getAllPlayers st.ls
    let filteredPlayers := players.filter (fun p => p.backendId != record.backendId)
    if players.length == filteredPlayers.length then (.error "Record not found", st, none)
    else
      let st1 := { st with ls := saveAllPlayers st.ls filteredPlayers }
      (.ok none, st1, notify st1 filteredPlayers)

/-- `read()`: returns the full collection as the success payload. -/
def read (st : ServiceState) : OfflineResult :=
  if !st.inited then .error notInitMsg
  else .ok (some (getAllPlayers st.ls))

/-- `clearAll()`: removes the players and current-player keys, re-runs
`_initializeStorage` and notifies with the empty list. -/
def clearAll (st : ServiceState) : Bool × ServiceState × Option (List Rec) :=
  let ls1 := { st.ls with players := none, currentPlayer := none }
  let st1 := { st with ls := initStorage ls1 }
  (true, st1, notify st1 [])

/-- The parsed shape of the snapshot produced by `exportData`. -/
structure ExportBlob where
  players : List Rec
  settings : Settings
  exportDate : String
deriving Repr, DecidableEq

/-- `exportData()`: snapshot of the players, the parsed settings (a
missing settings key defaults to the empty object) and the timestamp `now`
(`new Date().toISOString()`); `JSON.parse` of a corrupt settings blob
throws, which the catch turns into the `null` return. -/
def exportData (st : ServiceState) (now : String) : Option ExportBlob :=
  match st.ls.settings with
  | some .corrupt => none
  | some (.good s) => some ⟨getAllPlayers st.ls, s, now⟩
  | none => some ⟨getAllPlayers st.ls, [], now⟩

/-- The parsed shape of an import payload: optional `players` and
`settings` fields, `none` standing for an absent or falsy field. -/
structure ImportBlob where
  players : Option (List Rec)
  settings : Option Settings
deriving Repr, DecidableEq

/-- `JSON.parse` applied to the string `exportData` produced: the round
trip through `JSON.stringify` is the identity on these values, and both
the players array and the settings object are truthy. -/
def parseExport (e : ExportBlob) : ImportBlob := ⟨some e.players, some e.settings⟩

/-- `importData(jsonString)` on a payload that parsed to `data`: replaces
the players and settings keys wholesale when the corresponding field is
present, then notifies with `data.players || []`. -/
def importData (st : ServiceState) (data : ImportBlob) :
    Bool × ServiceState × Option (List Rec) :=
  let ls1 := match data.players with
    | some ps => { st.ls with players := some (.good ps) }
    | none => st.ls
  let ls2 := match data.settings with
    | some s => { ls1 with settings := some (.good s) }
    | none => ls1
  let st1 := { st with ls := ls2 }
  (true, st1, notify st1 (data.players.getD []))

/-- `StorageModeManager` state: the mode string and the cached
`onlineAvailable` flag. -/
structure StorageModeManager where
  mode : String
  onlineAvailable : Bool
deriving Repr, DecidableEq

/-- The two backends `getActiveService` can return. -/
inductive Backend where
  | dataSdk
  | offlineService
deriving Repr, DecidableEq

/-- `getActiveService()`, with the truthiness of `window.dataSdk` supplied
as `dataSdkPresent`. -/
def getActiveService (m : StorageModeManager) (dataSdkPresent : Bool) : Backend :=
  if m.mode == "online" && dataSdkPresent then .dataSdk
  else if m.mode == "auto" && dataSdkPresent && m.onlineAvailable then .dataSdk
  else .offlineService

/-- `setMode(mode)`: installs the mode only when it is one of the three
recognized tokens. -/
def setMode (m : StorageModeManager) (mode : String) : Bool × StorageModeManager :=
  if ["auto", "online", "offline"].contains mode then (true, { m with mode := mode })
  else (false, m)

/-- One CRUD call of a replayed sequence; `create` carries the identifier
`_generateId()` produced for it. -/
inductive Op where
  | create (record : Rec) (gid : String)
  | update (record : Rec)
  | delete (record : Rec)
deriving Repr, DecidableEq

/-- Dispatch one call to the service. -/
def applyOp (st : ServiceState) : Op → OfflineResult × ServiceState × Option (List Rec)
  | .create r gid => create st r gid
  | .update r => update st r
  | .delete r => delete st r

/-- The service state after replaying a sequence of calls. -/
def applyOps (st : ServiceState) (ops : List Op) : ServiceState :=
  ops.foldl (fun s op => (applyOp s op).2.1) st

/-- Replay rule read off the claim text: create appends the submitted
record carrying its generated identifier at the end; update replaces the
entries carrying the submitted identifier, at their positions, by a full
copy of the submitted record; delete removes the entries carrying the
submitted identifier; a call whose identifier is absent changes nothing. -/
def specStep (l : List Rec) : Op → List Rec
  | .create r gid => l ++ [{ payload := r.payload, backendId := some gid }]
  | .update r =>
      if idTruthy r.backendId then
        l.map (fun p => if p.backendId == r.backendId then r else p)
      else l
  | .delete r =>
      if idTruthy r.backendId then l.filter (fun p => p.backendId != r.backendId)
      else l

/-- The collection implied by replaying a sequence of calls from empty. -/
def specReplay (ops : List Op) : List Rec := List.foldl specStep [] ops

/-- The generated identifiers consumed by the create calls of a sequence. -/
def gids : List Op → List String
  | [] => []
  | .create _ g :: t => g :: gids t
  | _ :: t => gids t

/-- The identifiers of the records of a collection. -/
def keys (l : List Rec) : List (Option String) := l.map Rec.backendId

/-- A concrete replayed sequence, used to exercise the replay theorem. -/
def sampleOps : List Op :=
  [Op.create ⟨"A", none⟩ "id1", Op.create ⟨"B", some "fake"⟩ "id2",
   Op.update ⟨"A2", some "id1"⟩, Op.delete ⟨"B", some "id2"⟩]

/-- A freshly constructed and initialized service. -/
def freshInit : ServiceState := (init newService true).2.1

/-- A service holding one record, used to exercise the not-found paths. -/
def oneRecSt : ServiceState := (create freshInit ⟨"A", none⟩ "id1").2.1

/-! ## Basic lemmas about the embedding -/

@[simp]
lemma getAllPlayers_save (ls : LocalStorage) (l : List Rec) :
    getAllPlayers (saveAllPlayers ls l) = l := rfl

lemma getAllPlayers_of_good (ls : LocalStorage) (l : List Rec)
    (h : ls.players = some (.good l)) : getAllPlayers ls = l := by
  simp [getAllPlayers, h]

@[simp]
lemma keys_nil : keys [] = [] := rfl

@[simp]
lemma keys_cons (a : Rec) (t : List Rec) : keys (a :: t) = a.backendId :: keys t := rfl

@[simp]
lemma keys_append (l1 l2 : List Rec) : keys (l1 ++ l2) = keys l1 ++ keys l2 := by
  simp [keys]

@[simp]
lemma applyOps_nil (st : ServiceState) : applyOps st [] = st := rfl

@[simp]
lemma applyOps_cons (st : ServiceState) (op : Op) (rest : List Op) :
    applyOps st (op :: rest) = applyOps ((applyOp st op).2.1) rest := rfl

lemma gids_append (l1 l2 : List Op) : gids (l1 ++ l2) = gids l1 ++ gids l2 := by
  induction l1 with
  | nil => rfl
  | cons op t ih => cases op <;> simp [gids, ih]

lemma findIndex_eq_none_of (p : Rec → Bool) (l : List Rec)
    (h : ∀ a ∈ l, p a = false) : findIndex p l = none := by
  induction l with
  | nil => rfl
  | cons a t ih =>
    have ha : p a = false := h a (by simp)
    have ht : findIndex p t = none := ih (fun b hb => h b (by simp [hb]))
    simp [findIndex, ha, ht]

lemma forall_of_findIndex_eq_none (p : Rec → Bool) (l : List Rec)
    (h : findIndex p l = none) : ∀ a ∈ l, p a = false := by
  induction l with
  | nil => intro a ha; cases ha
  | cons a t ih =>
    rw [findIndex] at h
    by_cases hp : p a = true
    · rw [if_pos hp] at h; cases h
    · rw [if_neg hp] at h
      intro b hb
      rcases List.mem_cons.mp hb with rfl | hb
      · exact Bool.eq_false_iff.mpr hp
      · exact ih (Option.map_eq_none'.mp h) b hb

lemma map_replace_of_no_match (l : List Rec) (r : Rec)
    (h : ∀ p ∈ l, p.backendId ≠ r.backendId) :
    l.map (fun p => if p.backendId == r.backendId then r else p) = l := by
  induction l with
  | nil => rfl
  | cons a t ih =>
    have ha : (a.backendId == r.backendId) = false :=
      beq_eq_false_iff_ne.mpr (h a (by simp))
    rw [List.map_cons, if_neg (by simp [ha]), ih (fun p hp => h p (by simp [hp]))]

lemma filter_eq_self_of (q : Rec → Bool) (l : List Rec)
    (h : ∀ a ∈ l, q a = true) : l.filter q = l :=
  List.filter_eq_self.mpr h

lemma if_bang_true {α : Type} {b : Bool} (h : b = true) (x y : α) :
    (if (!b) = true then x else y) = y := by subst h; rfl

lemma if_bang_false {α : Type} {b : Bool} (h : b = false) (x y : α) :
    (if (!b) = true then x else y) = x := by subst h; rfl

lemma keys_map_replace (l : List Rec) (r : Rec) :
    keys (l.map (fun p => if p.backendId == r.backendId then r else p)) = keys l := by
  induction l with
  | nil => rfl
  | cons a t ih =>
    rw [List.map_cons, keys_cons, keys_cons, ih]
    by_cases h : (a.backendId == r.backendId) = true
    · rw [if_pos h, beq_iff_eq.mp h]
    · rw [if_neg h]

lemma set_findIndex_eq_map_replace (l : List Rec) (r : Rec) (i : Nat)
    (hnd : (keys l).Nodup)
    (hfi : findIndex (fun p => p.backendId == r.backendId) l = some i) :
    l.set i r = l.map (fun p => if p.backendId == r.backendId then r else p) := by
  induction l generalizing i with
  | nil => simp [findIndex] at hfi
  | cons a t ih =>
    rw [findIndex] at hfi
    by_cases h : (a.backendId == r.backendId) = true
    · rw [if_pos h] at hfi
      have hi : i = 0 := by
        have := hfi
        injection this with h0
        exact h0.symm
      subst hi
      have hnomatch : ∀ p ∈ t, p.backendId ≠ r.backendId := by
        intro p hp hpr
        have hmem : a.backendId ∈ keys t := by
          rw [beq_iff_eq.mp h, ← hpr]
          exact List.mem_map_of_mem _ hp
        exact (List.nodup_cons.mp hnd).1 hmem
      rw [List.map_cons, if_pos h, map_replace_of_no_match t r hnomatch]
      rfl
    · rw [if_neg h] at hfi
      cases hft : findIndex (fun p => p.backendId == r.backendId) t with
      | none => rw [hft] at hfi; cases hfi
      | some j =>
        rw [hft] at hfi
        have hij : i = j + 1 := by
          simp only [Option.map_some'] at hfi
          injection hfi with h1
          exact h1.symm
        subst hij
        rw [List.map_cons, if_neg h]
        show a :: t.set j r = a :: t.map _
        rw [ih j (List.nodup_cons.mp hnd).2 hft]

lemma keys_specStep_update (l : List Rec) (r : Rec) :
    keys (specStep l (.update r)) = keys l := by
  rw [specStep]
  by_cases ht : idTruthy r.backendId = true
  · rw [if_pos ht, keys_map_replace]
  · rw [if_neg ht]

lemma keys_specStep_delete (l : List Rec) (r : Rec) :
    List.Sublist (keys (specStep l (.delete r))) (keys l) := by
  rw [specStep]
  by_cases ht : idTruthy r.backendId = true
  · rw [if_pos ht]
    exact (List.filter_sublist l).map Rec.backendId
  · rw [if_neg ht]

/-! ## Per-operation state lemmas -/

lemma create_state (st : ServiceState) (r : Rec) (gid : String) (l : List Rec)
    (hin : st.inited = true) (hpl : st.ls.players = some (.good l)) :
    (create st r gid).2.1.inited = true ∧
    (create st r gid).2.1.ls.players = some (.good (specStep l (.create r gid))) := by
  rw [create]
  simp [hin, saveAllPlayers, specStep, getAllPlayers_of_good st.ls l hpl]

lemma update_state (st : ServiceState) (r : Rec) (l : List Rec)
    (hin : st.inited = true) (hpl : st.ls.players = some (.good l))
    (hnd : (keys l).Nodup) :
    (update st r).2.1.inited = true ∧
    (update st r).2.1.ls.players = some (.good (specStep l (.update r))) := by
  have hga := getAllPlayers_of_good st.ls l hpl
  rw [update, if_bang_true hin]
  by_cases ht : idTruthy r.backendId = true
  · rw [if_bang_true ht, specStep, if_pos ht]
    dsimp only
    rw [hga]
    cases hfi : findIndex (fun p => p.backendId == r.backendId) l with
    | none =>
      have hm : l.map (fun p => if p.backendId == r.backendId then r else p) = l :=
        map_replace_of_no_match l r (fun p hp hpr => by
          have hf := forall_of_findIndex_eq_none _ _ hfi p hp
          exact beq_eq_false_iff_ne.mp hf hpr)
      exact ⟨hin, by rw [hm, hpl]⟩
    | some i =>
      have hset := set_findIndex_eq_map_replace l r i hnd hfi
      exact ⟨hin, by dsimp only [saveAllPlayers]; rw [hset]⟩
  · rw [if_bang_false (Bool.eq_false_iff.mpr ht), specStep, if_neg ht]
    exact ⟨hin, hpl⟩

lemma delete_state (st : ServiceState) (r : Rec) (l : List Rec)
    (hin : st.inited = true) (hpl : st.ls.players = some (.good l)) :
    (delete st r).2.1.inited = true ∧
    (delete st r).2.1.ls.players = some (.good (specStep l (.delete r))) := by
  have hga := getAllPlayers_of_good st.ls l hpl
  rw [delete, if_bang_true hin]
  by_cases ht : idTruthy r.backendId = true
  · rw [if_bang_true ht, specStep, if_pos ht]
    dsimp only
    rw [hga]
    by_cases hlen :
        (l.length == (l.filter (fun p => p.backendId != r.backendId)).length) = true
    · have heq : l.filter (fun p => p.backendId != r.backendId) = l :=
        (List.filter_sublist l).eq_of_length (beq_iff_eq.mp hlen).symm
      rw [if_pos hlen]
      exact ⟨hin, by rw [heq, hpl]⟩
    · rw [if_neg hlen]
      exact ⟨hin, rfl⟩
  · rw [if_bang_false (Bool.eq_false_iff.mpr ht), specStep, if_neg ht]
    exact ⟨hin, hpl⟩

/-! ## The replay invariant -/

lemma applyOps_replay (ops : List Op) :
    ∀ (st : ServiceState) (l : List Rec),
      st.inited = true →
      st.ls.players = some (.good l) →
      (keys l).Nodup →
      (∀ g ∈ gids ops, (some g : Option String) ∉ keys l) →
      (gids ops).Nodup →
      (applyOps st ops).inited = true ∧
      (applyOps st ops).ls.players = some (.good (List.foldl specStep l ops)) ∧
      (keys (List.foldl specStep l ops)).Nodup := by
  induction ops with
  | nil =>
    intro st l hin hpl hnd _ _
    exact ⟨hin, hpl, hnd⟩
  | cons op rest ih =>
    intro st l hin hpl hnd hfresh hgnd
    rw [applyOps_cons, List.foldl_cons]
    cases op with
    | create r g =>
      obtain ⟨hin1, hpl1⟩ := create_state st r g l hin hpl
      have hgmem : g ∈ gids (Op.create r g :: rest) := by rw [gids]; exact List.mem_cons_self _ _
      have hknd1 : (keys (specStep l (.create r g))).Nodup := by
        rw [specStep, keys_append, keys_cons, keys_nil]
        rw [List.nodup_append]
        exact ⟨hnd, List.nodup_singleton _, by
          intro x hx hx2
          rcases List.mem_singleton.mp hx2 with rfl
          exact hfresh g hgmem hx⟩
      have hgcons : (g :: gids rest).Nodup := by
        have : gids (Op.create r g :: rest) = g :: gids rest := rfl
        rw [this] at hgnd
        exact hgnd
      have hfresh1 : ∀ g2 ∈ gids rest, (some g2 : Option String) ∉ keys (specStep l (.create r g)) := by
        intro g2 hg2 hmem
        rw [specStep, keys_append, keys_cons, keys_nil] at hmem
        rcases List.mem_append.mp hmem with hmem | hmem
        · exact hfresh g2 (by rw [gids]; exact List.mem_cons_of_mem _ hg2) hmem
        · rcases List.mem_singleton.mp hmem with hg
          have : g2 = g := by injection hg
          subst this
          exact (List.nodup_cons.mp hgcons).1 hg2
      exact ih _ _ hin1 hpl1 hknd1 hfresh1 (List.nodup_cons.mp hgcons).2
    | update r =>
      obtain ⟨hin1, hpl1⟩ := update_state st r l hin hpl hnd
      have hk := keys_specStep_update l r
      have hgr : gids (Op.update r :: rest) = gids rest := rfl
      rw [hgr] at hfresh hgnd
      exact ih _ _ hin1 hpl1 (hk ▸ hnd) (fun g hg => hk ▸ hfresh g hg) hgnd
    | delete r =>
      obtain ⟨hin1, hpl1⟩ := delete_state st r l hin hpl
      have hk := keys_specStep_delete l r
      have hgr : gids (Op.delete r :: rest) = gids rest := rfl
      rw [hgr] at hfresh hgnd
      refine ih _ _ hin1 hpl1 (hnd.sublist hk) ?_ hgnd
      intro g hg hmem
      exact hfresh g hg (hk.subset hmem)

/-! ## Claim theorems -/

/-- C1: starting from a successfully initialized store with an empty
collection, replaying any finite sequence of create/update/delete calls
whose generated identifiers are pairwise distinct leaves the persisted
collection exactly equal to the claim's replay rule (create appends the
record carrying its generated identifier at the end, update replaces the
matching entry in place by a full copy of the submitted record, delete
removes the matching entry), and every record of the resulting collection
is uniquely identified.  Quantifying over `ops ++ rest` makes the
conclusion available after each call of a longer sequence. -/
theorem replay_exact_and_unique (ops rest : List Op) (st : ServiceState)
    (hin : st.inited = true)
    (hpl : st.ls.players = some (PlayersBlob.good []))
    (hgnd : (gids (ops ++ rest)).Nodup) :
    getAllPlayers ((applyOps st ops).ls) = specReplay ops ∧
    (keys (specReplay ops)).Nodup := by
  have hg : (gids ops).Nodup := by
    rw [gids_append] at hgnd
    exact hgnd.of_append_left
  have h := applyOps_replay ops st [] hin hpl (by simp) (by simp) hg
  exact ⟨getAllPlayers_of_good _ _ h.2.1, by
    have := h.2.2
    rw [specReplay]
    exact this⟩

/-- Witness for C1 at a concrete replayed sequence. -/
theorem replay_exact_and_unique_witness :
    getAllPlayers ((applyOps freshInit sampleOps).ls) = specReplay sampleOps ∧
    (keys (specReplay sampleOps)).Nodup :=
  replay_exact_and_unique sampleOps [] freshInit rfl rfl (by decide)

/-- C2 counterexample: `clearAll` is part of the store's public surface,
yet invoked on a never-initialized service it does not fail with the
"not initialized" error: it returns `true`. -/
theorem clearAll_before_init_succeeds :
    newService.inited = false ∧ (clearAll newService).1 = true := by
  exact ⟨rfl, rfl⟩

/-- C2 (amended): the four CRUD operations (`read`, `create`, `update`,
`delete`) invoked before `init` all fail with the "not initialized" error
and leave the state unchanged; `clearAll` performs no initialization check
and returns `true`. -/
theorem uninit_crud_fails (st : ServiceState) (r : Rec) (gid : String)
    (hin : st.inited = false) :
    read st = OfflineResult.error notInitMsg ∧
    (create st r gid).1 = OfflineResult.error notInitMsg ∧
    (create st r gid).2.1 = st ∧
    (update st r).1 = OfflineResult.error notInitMsg ∧
    (update st r).2.1 = st ∧
    (delete st r).1 = OfflineResult.error notInitMsg ∧
    (delete st r).2.1 = st ∧
    (clearAll st).1 = true := by
  rw [read, create, update, delete, if_bang_false hin, if_bang_false hin,
    if_bang_false hin, if_bang_false hin]
  exact ⟨rfl, rfl, rfl, rfl, rfl, rfl, rfl, rfl⟩

/-- Witness for C2's amended theorem on the fresh service. -/
theorem uninit_crud_fails_witness :
    read newService = OfflineResult.error notInitMsg ∧
    (clearAll newService).1 = true :=
  ⟨(uninit_crud_fails newService ⟨"A", none⟩ "g" rfl).1,
   (uninit_crud_fails newService ⟨"A", none⟩ "g" rfl).2.2.2.2.2.2.2⟩

/-- C3 counterexample: the claim's token `online-forced` is rejected by
`setMode`, which returns `false` and leaves the mode unchanged. -/
theorem setMode_forced_tokens_rejected :
    (setMode ⟨"auto", false⟩ "online-forced").1 = false ∧
    (setMode ⟨"auto", false⟩ "online-forced").2 = ⟨"auto", false⟩ ∧
    (setMode ⟨"auto", false⟩ "offline-forced").1 = false := by
  exact ⟨rfl, rfl, rfl⟩

/-- C3 (amended): `setMode(value)` returns `true` and installs `value` as
the mode exactly when `value` is one of the tokens `auto`, `online`,
`offline`; otherwise it returns `false` and leaves the state unchanged. -/
theorem setMode_recognized_tokens (m : StorageModeManager) (v : String) :
    (((setMode m v).1 = true ∧ (setMode m v).2 = { m with mode := v }) ∨
      ((setMode m v).1 = false ∧ (setMode m v).2 = m)) ∧
    ((setMode m v).1 = true ↔ (v = "auto" ∨ v = "online" ∨ v = "offline")) := by
  rw [setMode]
  by_cases h : (["auto", "online", "offline"].contains v) = true
  · have hv : v = "auto" ∨ v = "online" ∨ v = "offline" := by
      have h2 := h
      simp [List.contains] at h2
      tauto
    rw [if_pos h]
    exact ⟨Or.inl ⟨rfl, rfl⟩, by simp [hv]⟩
  · have hv : ¬(v = "auto" ∨ v = "online" ∨ v = "offline") := by
      intro hc
      apply h
      rcases hc with rfl | rfl | rfl <;> rfl
    rw [if_neg h]
    constructor
    · exact Or.inr ⟨rfl, rfl⟩
    · constructor
      · intro hfalse
        cases hfalse
      · intro hc
        exact absurd hc hv

/-- Witness for C3's amended theorem at a recognized and kept token. -/
theorem setMode_recognized_tokens_witness :
    (setMode ⟨"auto", false⟩ "online").1 = true ↔
      ("online" = "auto" ∨ "online" = "online" ∨ "online" = "offline") :=
  (setMode_recognized_tokens ⟨"auto", false⟩ "online").2

/-- C4: on an initialized store, `update` and `delete` with a record whose
identifier is absent or not present in the collection return a failure,
leave the service state (hence the persisted collection) unchanged and
emit no change notification. -/
theorem unknown_id_fails (st : ServiceState) (r : Rec)
    (hin : st.inited = true)
    (hid : idTruthy r.backendId = false ∨
      ∀ p ∈ getAllPlayers st.ls, p.backendId ≠ r.backendId) :
    (update st r).1.isError = true ∧ (update st r).2.1 = st ∧
    (update st r).2.2 = none ∧
    (delete st r).1.isError = true ∧ (delete st r).2.1 = st ∧
    (delete st r).2.2 = none := by
  rw [update, delete, if_bang_true hin, if_bang_true hin]
  rcases hid with hid | hid
  · rw [if_bang_false hid, if_bang_false hid]
    exact ⟨rfl, rfl, rfl, rfl, rfl, rfl⟩
  · by_cases ht : idTruthy r.backendId = true
    · rw [if_bang_true ht, if_bang_true ht]
      dsimp only
      have hfi : findIndex (fun p => p.backendId == r.backendId)
          (getAllPlayers st.ls) = none :=
        findIndex_eq_none_of _ _ (fun a ha => beq_eq_false_iff_ne.mpr (hid a ha))
      have hfl : (getAllPlayers st.ls).filter (fun p => p.backendId != r.backendId) =
          getAllPlayers st.ls :=
        filter_eq_self_of _ _ (fun a ha => bne_iff_ne.mpr (hid a ha))
      rw [hfi, hfl, if_pos (beq_self_eq_true (getAllPlayers st.ls).length)]
      exact ⟨rfl, rfl, rfl, rfl, rfl, rfl⟩
    · rw [if_bang_false (Bool.eq_false_iff.mpr ht), if_bang_false (Bool.eq_false_iff.mpr ht)]
      exact ⟨rfl, rfl, rfl, rfl, rfl, rfl⟩

/-- Witness for C4: a store holding one record, probed with an unknown
identifier. -/
theorem unknown_id_fails_witness :
    (update oneRecSt ⟨"B", some "nope"⟩).2.1 = oneRecSt ∧
    (delete oneRecSt ⟨"B", some "nope"⟩).2.1 = oneRecSt := by
  have h := unknown_id_fails oneRecSt ⟨"B", some "nope"⟩ rfl (Or.inr (by decide))
  exact ⟨h.2.1, h.2.2.2.2.1⟩

/-- C5: on any state whose settings blob is not corrupt (every state the
module itself produces), `exportData` succeeds and feeding its parsed
snapshot back to `importData` returns `true` and restores a persisted
collection equal to the exported one, together with the exported
settings. -/
theorem export_import_roundtrip (st : ServiceState) (now : String)
    (hset : st.ls.settings ≠ some SettingsBlob.corrupt) :
    ∃ e, exportData st now = some e ∧
      e.players = getAllPlayers st.ls ∧
      (importData st (parseExport e)).1 = true ∧
      getAllPlayers ((importData st (parseExport e)).2.1.ls) = e.players ∧
      (importData st (parseExport e)).2.1.ls.settings = some (SettingsBlob.good e.settings) := by
  match hs : st.ls.settings with
  | some SettingsBlob.corrupt => exact absurd hs hset
  | some (SettingsBlob.good s) =>
    refine ⟨⟨getAllPlayers st.ls, s, now⟩, ?_, rfl, rfl, rfl, rfl⟩
    rw [exportData, hs]
  | none =>
    refine ⟨⟨getAllPlayers st.ls, [], now⟩, ?_, rfl, rfl, rfl, rfl⟩
    rw [exportData, hs]

/-- Witness for C5 on a store holding one record. -/
theorem export_import_roundtrip_witness :
    ∃ e, exportData oneRecSt "2026-10-12T00:00:00Z" = some e ∧
      e.players = getAllPlayers oneRecSt.ls ∧
      (importData oneRecSt (parseExport e)).1 = true ∧
      getAllPlayers ((importData oneRecSt (parseExport e)).2.1.ls) = e.players ∧
      (importData oneRecSt (parseExport e)).2.1.ls.settings =
        some (SettingsBlob.good e.settings) :=
  export_import_roundtrip oneRecSt "2026-10-12T00:00:00Z" (by decide)

/-- C6: `getActiveService` returns the remote backend exactly when the
mode is the forced-online token `online` and the remote binding is
present, or the mode is `auto`, the binding is present and the cached
availability flag is true; in every other case it returns the local
offline service. -/
theorem activeService_rule (m : StorageModeManager) (sdk : Bool) :
    (getActiveService m sdk = Backend.dataSdk ↔
      ((m.mode = "online" ∧ sdk = true) ∨
        (m.mode = "auto" ∧ sdk = true ∧ m.onlineAvailable = true))) ∧
    (getActiveService m sdk = Backend.dataSdk ∨
      getActiveService m sdk = Backend.offlineService) := by
  have htot : ∀ b : Backend, b = Backend.dataSdk ∨ b = Backend.offlineService := by
    intro b
    cases b
    · exact Or.inl rfl
    · exact Or.inr rfl
  refine ⟨?_, htot _⟩
  rw [getActiveService]
  by_cases h1 : (m.mode == "online" && sdk) = true
  · rw [if_pos h1]
    rcases Bool.and_eq_true_iff.mp h1 with ⟨ho, hs⟩
    simp [beq_iff_eq.mp ho, hs]
  · rw [if_neg h1]
    by_cases h2 : (m.mode == "auto" && sdk && m.onlineAvailable) = true
    · rw [if_pos h2]
      rcases Bool.and_eq_true_iff.mp h2 with ⟨h3, hav⟩
      rcases Bool.and_eq_true_iff.mp h3 with ⟨ha, hs⟩
      simp [beq_iff_eq.mp ha, hs, hav]
    · rw [if_neg h2]
      constructor
      · intro hc
        cases hc
      · rintro (⟨ho, hs⟩ | ⟨ha, hs, hav⟩)
        · exact absurd (by rw [ho, hs]; rfl) h1
        · exact absurd (by rw [ha, hs, hav]; rfl) h2

/-- Witness for C6 on a concrete manager state. -/
theorem activeService_rule_witness :
    getActiveService ⟨"auto", true⟩ true = Backend.dataSdk ↔
      (("auto" : String) = "online" ∧ true = true ∨
        ("auto" : String) = "auto" ∧ true = true ∧ true = true) :=
  (activeService_rule ⟨"auto", true⟩ true).1

/-- C7: on every result, accessing the data of a failure or the error of
a success raises; accessing the data of a success returns the stored
payload, and accessing the error of a failure returns the stored error. -/
theorem result_access_contract (r : OfflineResult) :
    (r.isError = true →
      r.getData = Except.error "Cannot access data on error result" ∧
      r.getError = Except.ok r._error) ∧
    (r.isOk = true →
      r.getError = Except.error "Cannot access error on success result" ∧
      r.getData = Except.ok r._data) := by
  obtain ⟨s, d, e⟩ := r
  cases s
  · exact ⟨fun _ => ⟨rfl, rfl⟩, fun h => Bool.noConfusion h⟩
  · exact ⟨fun h => Bool.noConfusion h, fun _ => ⟨rfl, rfl⟩⟩

/-- Witness for C7 on a concrete failure and a concrete success. -/
theorem result_access_contract_witness :
    (OfflineResult.error "boom").getError = Except.ok (some "boom") ∧
    (OfflineResult.ok (some [])).getData = Except.ok (some []) :=
  ⟨((result_access_contract (OfflineResult.error "boom")).1 rfl).2,
   ((result_access_contract (OfflineResult.ok (some []))).2 rfl).2⟩

/-- C8: `clearAll` removes only the players and current-player keys and
re-creates an empty collection; when the settings key is present (as it is
after any prior write), the persisted settings blob is unchanged. -/
theorem clearAll_preserves_settings (st : ServiceState)
    (hset : st.ls.settings.isSome = true) :
    (clearAll st).1 = true ∧
    (clearAll st).2.1.ls.players = some (PlayersBlob.good []) ∧
    (clearAll st).2.1.ls.currentPlayer = none ∧
    (clearAll st).2.1.ls.settings = st.ls.settings ∧
    (clearAll st).2.1.inited = st.inited ∧
    (clearAll st).2.2 = notify st [] := by
  obtain ⟨s, hs⟩ := Option.isSome_iff_exists.mp hset
  have hinit : ∀ (ls : LocalStorage) (s0 : SettingsBlob), ls.settings = some s0 →
      initStorage { ls with players := none, currentPlayer := none } =
      { ls with players := some (.good []), currentPlayer := none } := by
    intro ls s0 hsl
    obtain ⟨p, c, sl⟩ := ls
    dsimp only at hsl
    subst hsl
    rfl
  rw [clearAll]
  dsimp only
  rw [hinit st.ls s hs]
  exact ⟨rfl, rfl, rfl, rfl, rfl, rfl⟩

/-- Witness for C8 on an initialized fresh store (settings present). -/
theorem clearAll_preserves_settings_witness :
    (clearAll freshInit).1 = true ∧
    (clearAll freshInit).2.1.ls.settings = freshInit.ls.settings := by
  have h := clearAll_preserves_settings freshInit rfl
  exact ⟨h.1, h.2.2.2.1⟩

/-- C9: `create` copies the submitted fields and then overwrites the
identifier field, so the stored record always carries the freshly
generated identifier, never a caller-supplied one. -/
theorem create_overwrites_id (st : ServiceState) (record : Rec) (gid : String)
    (hin : st.inited = true) :
    getAllPlayers ((create st record gid).2.1.ls) =
      getAllPlayers st.ls ++ [{ payload := record.payload, backendId := some gid }] ∧
    (create st record gid).1 = OfflineResult.ok none := by
  rw [create, if_bang_true hin]
  exact ⟨rfl, rfl⟩

/-- Witness for C9: a caller-supplied identifier is replaced by the
generated one. -/
theorem create_overwrites_id_witness :
    getAllPlayers ((create freshInit ⟨"A", some "mine"⟩ "fresh").2.1.ls) =
      [{ payload := "A", backendId := some "fresh" }] := by
  have h := create_overwrites_id freshInit ⟨"A", some "mine"⟩ "fresh" rfl
  exact h.1

/-- C10: after a successful initialize, `read` always returns a success
carrying the current collection; a missing or unparseable players blob is
replaced by the empty list inside the loader, so no storage-read failure
surfaces. -/
theorem read_after_init_ok (st : ServiceState) (hin : st.inited = true) :
    (read st).isOk = true ∧
    read st = OfflineResult.ok (some (getAllPlayers st.ls)) ∧
    ((st.ls.players = none ∨ st.ls.players = some PlayersBlob.corrupt) →
      read st = OfflineResult.ok (some [])) := by
  rw [read, if_bang_true hin]
  refine ⟨rfl, rfl, ?_⟩
  intro h
  rcases h with h | h <;> simp [getAllPlayers, h]

/-- Witness for C10: reading a service whose players key was never
written (hence absent) succeeds with the empty list. -/
theorem read_after_init_ok_witness :
    read (init ⟨⟨none, none, none⟩, false, false⟩ true).2.1 =
      OfflineResult.ok (some []) := by
  have h := read_after_init_ok (init ⟨⟨none, none, none⟩, false, false⟩ true).2.1 rfl
  exact h.2.2 (Or.inl rfl)

end XnRoot
